import Mathlib

/-!
Shallow embedding of `packages/performance/src/resources/trace.ts` (the
`Trace` class of the Firebase performance SDK) and proofs about it.

Modelling conventions:
* JS numbers are modelled as rationals (`ℚ`); `Math.floor` is `Int.floor`.
* Plain JS objects used as string-keyed maps (`counters`,
  `customAttributes`, `options.metrics`, `options.attributes`) are
  association lists with unique keys: assignment `obj[k] = v` updates the
  existing binding or appends a fresh one, `delete obj[k]` removes it,
  and reading an absent key yields `none` (JS `undefined`).
* Fields declared with TypeScript's definite-assignment marker (`!`) but
  only assigned later (`startTimeUs`, `durationUs`, the mark names) are
  `Option`-valued, `none` standing for "not yet assigned".
* The external `Api` singleton (`api_service`) is an explicit environment
  value; `logTrace` (the reporter) is modelled by returning the list of
  reported traces; `api.mark` / `api.measure` only touch the browser's
  global performance-entry registry, which the embedding represents
  through `Api.entriesByName` (the answer the registry gives when
  `calculateTraceMetrics` queries it), so they produce no field change on
  the trace itself.
* Thrown `FirebaseError`s are modelled by an `error` component in the
  operation result; since the source throws before any mutation, the
  trace returned alongside an error is the unchanged input trace.
-/

namespace FirebasePerf

/-! ### JS object maps -/

/-- JS object property update `obj[k] = v`: overwrite the binding if the
key is present, otherwise append it. -/
def JsObj.set {α : Type} : List (String × α) → String → α → List (String × α)
  | [], k, v => [(k, v)]
  | (k', v') :: rest, k, v =>
    if k' = k then (k', v) :: rest else (k', v') :: JsObj.set rest k v

/-- JS object property read `obj[k]`: `none` models `undefined`. -/
def JsObj.lookup {α : Type} : List (String × α) → String → Option α
  | [], _ => none
  | (k', v') :: rest, k => if k' = k then some v' else JsObj.lookup rest k

/-- JS `delete obj[k]`: remove the binding for `k` (keys are unique). -/
def JsObj.remove {α : Type} : List (String × α) → String → List (String × α)
  | [], _ => []
  | (k', v') :: rest, k => if k' = k then rest else (k', v') :: JsObj.remove rest k

abbrev AttrMap := List (String × String)
abbrev CounterMap := List (String × ℚ)

/-- Truthiness of a JS number: `0` (and only `0`, since the rational model
has no `NaN`) is falsy. -/
def truthyNum (q : ℚ) : Bool := decide (q ≠ 0)

/-- Truthiness of a JS string: the empty string is falsy. -/
def truthyStr (s : String) : Bool := decide (s ≠ "")

/-- JS `x || 0` applied to a possibly-`undefined` numeric property read:
`undefined` and the falsy number `0` give `0`, anything else gives itself
(used by `getMetric`, trace.ts line 174). -/
def jsOrZero (v : Option ℚ) : ℚ :=
  match v with
  | some q => if q = 0 then 0 else q
  | none => 0

/-! ### Constants

Modelled from the spec: the string constants live in
`packages/performance/src/constants.ts`, which is not part of the given
sources. The spec only requires them to be fixed names/prefixes (§4.1,
§4.7), so the concrete values below matter only in that they are fixed
and pairwise distinct. -/

/-- Modelled from the spec: fixed prefix for start-mark names. -/
def TRACE_START_MARK_PFX : String := "FB-PERF-TRACE-START"

/-- Modelled from the spec: fixed prefix for stop-mark names. -/
def TRACE_STOP_MARK_PFX : String := "FB-PERF-TRACE-STOP"

/-- Modelled from the spec: fixed prefix for measure names. -/
def TRACE_MEASURE_PFX : String := "FB-PERF-TRACE-MEASURE"

/-- Modelled from the spec: fixed prefix for out-of-band page-load trace
names. -/
def OOB_TRACE_PAGE_LOAD_PFX : String := "_wt_"

/-- Modelled from the spec: fixed counter name for the first-paint metric. -/
def FIRST_PAINT_COUNTER_NAME : String := "_fp"

/-- Modelled from the spec: fixed counter name for the
first-contentful-paint metric. -/
def FIRST_CONTENTFUL_PAINT_COUNTER_NAME : String := "_fcp"

/-- Modelled from the spec: fixed counter name for the first-input-delay
metric. -/
def FIRST_INPUT_DELAY_COUNTER_NAME : String := "_fid"

/-! ### Errors and external collaborators -/

/-- The two error codes `Trace` can raise (`utils/errors` is external to
the sources; the codes and the `traceName` payload are taken from the
throw sites in trace.ts lines 86-88 and 100-102). -/
inductive ErrorCode
  | traceStartedBefore
  | traceStoppedBefore
deriving DecidableEq, Repr

/-- A thrown error: its code together with the `traceName` interpolation
datum passed to `ERROR_FACTORY.create`. -/
structure FirebaseError where
  code : ErrorCode
  traceName : String
deriving DecidableEq, Repr

/-- A performance-timeline entry as consumed by `calculateTraceMetrics`
and `createOobTrace`: a name plus `startTime` / `duration` in
(fractional) milliseconds. -/
structure PerformanceEntry where
  name : String
  startTime : ℚ
  duration : ℚ
deriving DecidableEq, Repr

/-- The slice of the `Api` singleton (`services/api_service`, external to
the sources) that `Trace` consumes, per spec §6: entry lookup by exact
name, the time origin, and the current URL (`none` models an absent
navigation context). -/
structure Api where
  entriesByName : String → List PerformanceEntry
  timeOrigin : ℚ
  url : Option String

/-- A `PerformanceNavigationTiming` record, restricted to the four fields
`createOobTrace` reads. -/
structure NavigationTiming where
  duration : ℚ
  domInteractive : ℚ
  domContentLoadedEventEnd : ℚ
  loadEventEnd : ℚ
deriving DecidableEq, Repr

/-! ### The Trace state machine -/

/-- The `TraceState` enum (trace.ts lines 32-36). -/
inductive TraceState
  | uninitialized
  | running
  | terminated
deriving DecidableEq, Repr

/-- Numeric index of a state, matching the source enum's underlying
values (`UNINITIALIZED = 1`, then auto-increment); used to express
monotonicity of the state machine. -/
def TraceState.idx : TraceState → Nat
  | .uninitialized => 1
  | .running => 2
  | .terminated => 3

/-- The `Trace` class's fields (trace.ts lines 38-48). `randomId` stands
for the `Math.floor(Math.random() * 1000000)` draw and is a parameter of
the model (nondeterminism made explicit). -/
structure Trace where
  name : String
  isAuto : Bool
  state : TraceState
  startTimeUs : Option Int
  durationUs : Option Int
  customAttributes : AttrMap
  counters : CounterMap
  randomId : Nat
  traceStartMark : Option String
  traceStopMark : Option String
  traceMeasure : Option String
deriving DecidableEq, Repr

/-- Embeds `Trace.calculateTraceMetrics` (trace.ts lines 217-226): query
the entries for the measure name, and if a first entry exists assign
`durationUs = floor(entry.duration * 1000)` and
`startTimeUs = floor((entry.startTime + timeOrigin) * 1000)`; otherwise
leave the trace untouched. An auto trace never assigns `traceMeasure`
(and never reaches this code); querying with the unset name finds no
entries. -/
def Trace.calculateTraceMetrics (api : Api) (t : Trace) : Trace :=
  let perfMeasureEntries :=
    match t.traceMeasure with
    | some n => api.entriesByName n
    | none => []
  match perfMeasureEntries with
  | [] => t
  | entry :: _ =>
    { t with
      durationUs := some ⌊entry.duration * 1000⌋
      startTimeUs := some ⌊(entry.startTime + api.timeOrigin) * 1000⌋ }

/-- Embeds the constructor (trace.ts lines 57-79). For non-auto traces
the three mark/measure names are derived from the prefixes, the random id
and the trace name; `traceMeasureName || generated` is a JS truthiness
fallback, so a supplied empty string behaves like an absent argument, and
a (truthy) supplied measure name triggers the immediate
`calculateTraceMetrics` path. -/
def Trace.new (api : Api) (randomId : Nat) (name : String) (isAuto : Bool)
    (traceMeasureName : Option String) : Trace :=
  let base : Trace :=
    { name := name
      isAuto := isAuto
      state := TraceState.uninitialized
      startTimeUs := none
      durationUs := none
      customAttributes := []
      counters := []
      randomId := randomId
      traceStartMark := none
      traceStopMark := none
      traceMeasure := none }
  if isAuto then base
  else
    let suppliedMeasure :=
      match traceMeasureName with
      | some s => if truthyStr s then some s else none
      | none => none
    let t :=
      { base with
        traceStartMark :=
          some (TRACE_START_MARK_PFX ++ "-" ++ toString randomId ++ "-" ++ name)
        traceStopMark :=
          some (TRACE_STOP_MARK_PFX ++ "-" ++ toString randomId ++ "-" ++ name)
        traceMeasure :=
          some (suppliedMeasure.getD
            (TRACE_MEASURE_PFX ++ "-" ++ toString randomId ++ "-" ++ name)) }
    match suppliedMeasure with
    | some _ => Trace.calculateTraceMetrics api t
    | none => t

/-- Result of one method call: the trace afterwards, the traces handed to
the reporter (`logTrace`) during the call, and the thrown error if any.
The source throws before mutating, so on an error the trace component is
the unchanged input. -/
structure StepResult where
  trace : Trace
  reports : List Trace
  error : Option FirebaseError
deriving DecidableEq, Repr

/-- Embeds `Trace.start` (trace.ts lines 84-92): guard on
`state !== UNINITIALIZED`, then `api.mark(start mark)` (an external
registry effect with no trace field change) and the transition to
`RUNNING`. -/
def Trace.start (t : Trace) : StepResult :=
  if t.state ≠ TraceState.uninitialized then
    { trace := t
      reports := []
      error := some { code := ErrorCode.traceStartedBefore, traceName := t.name } }
  else
    { trace := { t with state := TraceState.running }, reports := [], error := none }

/-- Embeds `Trace.stop` (trace.ts lines 98-113): guard on
`state !== RUNNING`, transition to `TERMINATED`, emit the stop mark and
the measure (external registry effects, reflected in what
`api.entriesByName` answers), compute the metrics, and report the trace
once via `logTrace`. -/
def Trace.stop (api : Api) (t : Trace) : StepResult :=
  if t.state ≠ TraceState.running then
    { trace := t
      reports := []
      error := some { code := ErrorCode.traceStoppedBefore, traceName := t.name } }
  else
    let t1 := { t with state := TraceState.terminated }
    let t2 := Trace.calculateTraceMetrics api t1
    { trace := t2, reports := [t2], error := none }

/-- A value appearing in `options.metrics`. The source only ever uses a
metric value through its JS `Number(...)` coercion (`isNaN(Number(v))`
and `Math.floor(v)`, trace.ts lines 137-138), so the model keeps exactly
that observation: `num q` is any value coercing to the number `q`
(numbers themselves, numeric strings, ...), `nan` is any value coercing
to `NaN` (e.g. the string "not-a-number"). -/
inductive MetricValue
  | num (q : ℚ)
  | nan
deriving DecidableEq, Repr

/-- JS `Number(...)` coercion of a metric value; `none` models `NaN`. -/
def MetricValue.toNumber : MetricValue → Option ℚ
  | .num q => some q
  | .nan => none

/-- The optional `options` argument of `record` (trace.ts lines 125-128). -/
structure RecordOptions where
  metrics : Option (List (String × MetricValue)) := none
  attributes : Option AttrMap := none
deriving DecidableEq, Repr

/-- The metrics loop of `record` (trace.ts lines 135-141): for each key of
`options.metrics`, skip it when `Number(...)` is `NaN`, otherwise store
the floored value. The keys of a JS object are unique, which proofs take
as a `Nodup` hypothesis. -/
def applyRecordMetrics : CounterMap → List (String × MetricValue) → CounterMap
  | cs, [] => cs
  | cs, (k, v) :: rest =>
    match v.toNumber with
    | some q => applyRecordMetrics (JsObj.set cs k ((⌊q⌋ : ℤ) : ℚ)) rest
    | none => applyRecordMetrics cs rest

/-- Embeds `Trace.record` (trace.ts lines 122-143): assign
`durationUs`/`startTimeUs` as floored microseconds, replace the attribute
map by a spread copy of `options.attributes` when supplied, run the
metrics loop when `options.metrics` is supplied, and report the trace
once. The state is neither checked nor changed and nothing can fail. -/
def Trace.record (t : Trace) (startTime duration : ℚ)
    (options : Option RecordOptions) : Trace × List Trace :=
  let t1 :=
    { t with
      durationUs := some ⌊duration * 1000⌋
      startTimeUs := some ⌊startTime * 1000⌋ }
  let t2 :=
    match options.bind RecordOptions.attributes with
    | some attrs => { t1 with customAttributes := attrs }
    | none => t1
  let t3 :=
    match options.bind RecordOptions.metrics with
    | some ms => { t2 with counters := applyRecordMetrics t2.counters ms }
    | none => t2
  (t3, [t3])

/-- Embeds `Trace.incrementMetric` (trace.ts lines 151-156): initialize
an absent counter to `0`, then add `num` (default `1` at call sites). -/
def Trace.incrementMetric (t : Trace) (counter : String) (num : ℚ) : Trace :=
  let cs :=
    if (JsObj.lookup t.counters counter).isNone then
      JsObj.set t.counters counter 0
    else t.counters
  { t with
    counters := JsObj.set cs counter ((JsObj.lookup cs counter).getD 0 + num) }

/-- Embeds `Trace.putMetric` (trace.ts lines 164-166): unconditional
assignment of the given value, with no flooring or other adjustment. -/
def Trace.putMetric (t : Trace) (counter : String) (num : ℚ) : Trace :=
  { t with counters := JsObj.set t.counters counter num }

/-- Embeds `Trace.getMetric` (trace.ts lines 173-175):
`this.counters[counter] || 0`. -/
def Trace.getMetric (t : Trace) (counter : String) : ℚ :=
  jsOrZero (JsObj.lookup t.counters counter)

/-- Embeds `Trace.putAttribute` (trace.ts lines 182-184). -/
def Trace.putAttribute (t : Trace) (attr value : String) : Trace :=
  { t with customAttributes := JsObj.set t.customAttributes attr value }

/-- Embeds `Trace.getAttribute` (trace.ts lines 190-192). -/
def Trace.getAttribute (t : Trace) (attr : String) : Option String :=
  JsObj.lookup t.customAttributes attr

/-- Embeds `Trace.removeAttribute` (trace.ts lines 194-199): return early
when the attribute is absent, otherwise delete it. -/
def Trace.removeAttribute (t : Trace) (attr : String) : Trace :=
  if (JsObj.lookup t.customAttributes attr).isNone then t
  else { t with customAttributes := JsObj.remove t.customAttributes attr }

/-- Embeds `Trace.getAttributes` (trace.ts lines 201-203) at the value
level: the contents of the returned spread copy. The object-identity
aspect (the copy is a fresh object) is captured by the heap model below
(`TraceObj.getAttributes`). -/
def Trace.getAttributes (t : Trace) : AttrMap := t.customAttributes

/-- Embeds the private `Trace.setStartTime` (trace.ts lines 205-207). -/
def Trace.setStartTime (t : Trace) (startTime : Int) : Trace :=
  { t with startTimeUs := some startTime }

/-- Embeds the private `Trace.setDuration` (trace.ts lines 209-211). -/
def Trace.setDuration (t : Trace) (duration : Int) : Trace :=
  { t with durationUs := some duration }

/-! ### The operations, as a step function -/

/-- The mutating method calls of `Trace`, for stating properties of
arbitrary call sequences. -/
inductive Op
  | start
  | stop
  | record (startTime duration : ℚ) (options : Option RecordOptions)
  | incrementMetric (counter : String) (num : ℚ)
  | putMetric (counter : String) (num : ℚ)
  | putAttribute (attr value : String)
  | removeAttribute (attr : String)
deriving DecidableEq

/-- One method call on a trace. -/
def step (api : Api) (t : Trace) : Op → StepResult
  | .start => t.start
  | .stop => t.stop api
  | .record st du o =>
    let r := t.record st du o
    { trace := r.1, reports := r.2, error := none }
  | .incrementMetric c n => { trace := t.incrementMetric c n, reports := [], error := none }
  | .putMetric c n => { trace := t.putMetric c n, reports := [], error := none }
  | .putAttribute a v => { trace := t.putAttribute a v, reports := [], error := none }
  | .removeAttribute a => { trace := t.removeAttribute a, reports := [], error := none }

/-- Run a sequence of method calls, collecting every trace handed to the
reporter. A thrown error leaves the trace as it was (the guard precedes
any mutation in the source), and the caller may keep calling. -/
def run (api : Api) : Trace → List Op → Trace × List Trace
  | t, [] => (t, [])
  | t, op :: ops =>
    let r := step api t op
    let rest := run api r.trace ops
    (rest.1, r.reports ++ rest.2)

/-! ### Static factories -/

/-- The navigation-timing part of `createOobTrace` (trace.ts lines
248-262): `navigationTimings && navigationTimings[0]` is truthy exactly
when the collection is nonempty, in which case the duration and three
counters are recorded as floored microseconds. -/
def applyNavCounters (t : Trace) : List NavigationTiming → Trace
  | [] => t
  | nav :: _ =>
    (((t.setDuration ⌊nav.duration * 1000⌋).incrementMetric "domInteractive"
        ((⌊nav.domInteractive * 1000⌋ : ℤ) : ℚ)).incrementMetric
        "domContentLoadedEventEnd"
        ((⌊nav.domContentLoadedEventEnd * 1000⌋ : ℤ) : ℚ)).incrementMetric
        "loadEventEnd" ((⌊nav.loadEventEnd * 1000⌋ : ℤ) : ℚ)

/-- One paint-timing counter of `createOobTrace` (trace.ts lines 266-284):
record the found entry's start time, floored to microseconds, but only
when the entry exists and its `startTime` is truthy (nonzero). -/
def applyPaintCounter (t : Trace) (counterName : String)
    (entry : Option PerformanceEntry) : Trace :=
  match entry with
  | some p =>
    if truthyNum p.startTime then
      t.incrementMetric counterName ((⌊p.startTime * 1000⌋ : ℤ) : ℚ)
    else t
  | none => t

/-- The first-input-delay part of `createOobTrace` (trace.ts lines
286-291): `if (firstInputDelay)` is a JS truthiness test, so an absent
value and a supplied value of `0` are both skipped. -/
def applyFid (t : Trace) (firstInputDelay : Option ℚ) : Trace :=
  match firstInputDelay with
  | some fid =>
    if truthyNum fid then
      t.incrementMetric FIRST_INPUT_DELAY_COUNTER_NAME ((⌊fid * 1000⌋ : ℤ) : ℚ)
    else t
  | none => t

/-- Embeds the static `Trace.createOobTrace` (trace.ts lines 234-295),
returning the traces handed to the reporter. `if (!route)` aborts on an
absent or empty URL. The `if (paintTimings)` guard in the source is
always taken in the model because the parameter is an array (a JS array
reference is truthy even when empty), matching the TypeScript signature. -/
def Trace.createOobTrace (api : Api) (randomId : Nat)
    (navigationTimings : List NavigationTiming)
    (paintTimings : List PerformanceEntry)
    (firstInputDelay : Option ℚ) : List Trace :=
  let route :=
    match api.url with
    | some r => if truthyStr r then some r else none
    | none => none
  match route with
  | none => []
  | some r =>
    let trace := Trace.new api randomId (OOB_TRACE_PAGE_LOAD_PFX ++ r) true none
    let timeOriginUs : Int := ⌊api.timeOrigin * 1000⌋
    let t1 := trace.setStartTime timeOriginUs
    let t2 := applyNavCounters t1 navigationTimings
    let t3 := applyPaintCounter t2 FIRST_PAINT_COUNTER_NAME
      (paintTimings.find? (fun p => p.name == "first-paint"))
    let t4 := applyPaintCounter t3 FIRST_CONTENTFUL_PAINT_COUNTER_NAME
      (paintTimings.find? (fun p => p.name == "first-contentful-paint"))
    let t5 := applyFid t4 firstInputDelay
    [t5]

/-- Embeds the static `Trace.createUserTimingTrace` (trace.ts lines
297-300): build a non-auto trace whose measure name is the given one
(triggering the constructor's immediate metric computation) and report
it. -/
def Trace.createUserTimingTrace (api : Api) (randomId : Nat)
    (measureName : String) : List Trace :=
  let trace := Trace.new api randomId measureName false (some measureName)
  [trace]

/-! ### Object-identity model for `getAttributes`

The defensive-copy claim is about aliasing, which value semantics cannot
distinguish, so the attribute map is modelled here behind an explicit
heap: a map object is a reference (an index) into a store of `AttrMap`
contents. `TraceObj.getAttributes` allocates a fresh object holding a
copy of the internal map's contents — exactly the JS spread
`{ ...this.customAttributes }` (a shallow copy; attribute values are
immutable strings, so shallow and deep coincide) — while a
non-defensive implementation would return `t.attrsRef` itself. -/

/-- A store of JS map objects; a reference is an index, allocation
appends. -/
structure Heap where
  objs : List AttrMap
deriving DecidableEq, Repr

/-- Dereference a map object (unallocated references read as empty). -/
def Heap.read (h : Heap) (r : Nat) : AttrMap :=
  h.objs.getD r []

/-- Overwrite the contents of a map object. -/
def Heap.write (h : Heap) (r : Nat) (m : AttrMap) : Heap :=
  { objs := h.objs.set r m }

/-- Allocate a fresh map object with the given contents. -/
def Heap.alloc (h : Heap) (m : AttrMap) : Nat × Heap :=
  (h.objs.length, { objs := h.objs ++ [m] })

/-- A trace, reduced to the reference it holds to its private
`customAttributes` object. -/
structure TraceObj where
  attrsRef : Nat
deriving DecidableEq, Repr

/-- `putAttribute` in the heap model (trace.ts lines 182-184): update the
internal map object in place. -/
def TraceObj.putAttribute (h : Heap) (t : TraceObj) (attr value : String) : Heap :=
  h.write t.attrsRef (JsObj.set (h.read t.attrsRef) attr value)

/-- `getAttribute` in the heap model (trace.ts lines 190-192). -/
def TraceObj.getAttribute (h : Heap) (t : TraceObj) (attr : String) : Option String :=
  JsObj.lookup (h.read t.attrsRef) attr

/-- `getAttributes` in the heap model (trace.ts lines 201-203):
`return { ...this.customAttributes }` allocates a fresh object carrying a
copy of the internal map's contents and returns the new reference. -/
def TraceObj.getAttributes (h : Heap) (t : TraceObj) : Nat × Heap :=
  h.alloc (h.read t.attrsRef)

/-- A caller mutating a map object it got back from the API:
`returned[k] = v`. -/
def objSet (h : Heap) (r : Nat) (k v : String) : Heap :=
  h.write r (JsObj.set (h.read r) k v)

/-! ### Concrete fixtures for witnesses and counterexamples -/

/-- An environment with an empty performance-entry registry and no URL. -/
def testApi : Api :=
  { entriesByName := fun _ => [], timeOrigin := 0, url := none }

/-- A freshly constructed user trace. -/
def trace0 : Trace := Trace.new testApi 42 "t" false none

/-- A freshly constructed user trace used for the run fixtures. -/
def traceR : Trace := Trace.new testApi 7 "r" false none

/-- The fixed performance entry served by `apiW`. -/
def entryW : PerformanceEntry := { name := "m", startTime := 3/2, duration := 3/2 }

/-- An environment whose registry answers every query with `entryW`. -/
def apiW : Api :=
  { entriesByName := fun _ => [entryW], timeOrigin := 1, url := none }

/-- A trace whose measure name is set, for exercising
`calculateTraceMetrics` directly. -/
def traceW : Trace := { trace0 with traceMeasure := some "m" }

/-- An environment that reports a URL, for the page-load factory. -/
def oobApi : Api :=
  { entriesByName := fun _ => [], timeOrigin := 0, url := some "page" }

/-- A navigation-timing fixture. -/
def navW : NavigationTiming :=
  { duration := 2, domInteractive := 1/2, domContentLoadedEventEnd := 1, loadEventEnd := 1 }

/-- A heap holding exactly the attribute object of one trace. -/
def heap0 : Heap := { objs := [[]] }

/-- The trace owning the single object of `heap0`. -/
def tObj0 : TraceObj := { attrsRef := 0 }

/-- A trace already started, for the guard witnesses. -/
def startedTrace : Trace := { trace0 with state := TraceState.running }

/-- A trace already stopped, for the guard witnesses. -/
def stoppedTrace : Trace := { trace0 with state := TraceState.terminated }

/-- The options map of the spec's `record` example:
`{metrics: {m: 2.9}, attributes: {k: "v"}}`. -/
def recOptsW : Option RecordOptions :=
  some { metrics := some [("m", MetricValue.num (29/10))]
         attributes := some [("k", "v")] }

/-- A metrics map with one non-numeric entry and one numeric sibling:
`{m: "not-a-number", n: 2.9}`. -/
def msW : List (String × MetricValue) :=
  [("m", MetricValue.nan), ("n", MetricValue.num (29/10))]

/-! ### Helper lemmas about the JS object maps -/

theorem JsObj.lookup_set_self {α : Type} (m : List (String × α)) (k : String) (v : α) :
    JsObj.lookup (JsObj.set m k v) k = some v := by
  induction m with
  | nil => simp [JsObj.set, JsObj.lookup]
  | cons hd tl ih =>
    obtain ⟨k', v'⟩ := hd
    by_cases h : k' = k
    · simp [JsObj.set, JsObj.lookup, h]
    · simp [JsObj.set, JsObj.lookup, h, ih]

theorem JsObj.lookup_set_ne {α : Type} (m : List (String × α)) (k k' : String) (v : α)
    (h : k' ≠ k) :
    JsObj.lookup (JsObj.set m k v) k' = JsObj.lookup m k' := by
  have h' : k ≠ k' := Ne.symm h
  induction m with
  | nil => simp [JsObj.set, JsObj.lookup, h']
  | cons hd tl ih =>
    obtain ⟨k₀, v₀⟩ := hd
    by_cases hk : k₀ = k
    · subst hk
      simp [JsObj.set, JsObj.lookup, h']
    · simp [JsObj.set, JsObj.lookup, hk, ih]

/-! ### Helper lemmas about the trace operations -/

theorem lookup_incrementMetric_self (t : Trace) (c : String) (n : ℚ) :
    JsObj.lookup (t.incrementMetric c n).counters c
      = some ((JsObj.lookup t.counters c).getD 0 + n) := by
  unfold Trace.incrementMetric
  cases hl : JsObj.lookup t.counters c with
  | none => simp [hl, JsObj.lookup_set_self]
  | some q => simp [hl, JsObj.lookup_set_self]

theorem lookup_incrementMetric_ne (t : Trace) (c c' : String) (n : ℚ) (h : c' ≠ c) :
    JsObj.lookup (t.incrementMetric c n).counters c' = JsObj.lookup t.counters c' := by
  unfold Trace.incrementMetric
  cases hl : JsObj.lookup t.counters c with
  | none => simp [hl, JsObj.lookup_set_ne _ _ _ _ h]
  | some q => simp [hl, JsObj.lookup_set_ne _ _ _ _ h]

theorem state_incrementMetric (t : Trace) (c : String) (n : ℚ) :
    (t.incrementMetric c n).state = t.state := rfl

theorem counters_setStartTime (t : Trace) (v : Int) :
    (t.setStartTime v).counters = t.counters := rfl

theorem counters_setDuration (t : Trace) (v : Int) :
    (t.setDuration v).counters = t.counters := rfl

theorem counters_new_auto (api : Api) (rid : Nat) (nm : String) :
    (Trace.new api rid nm true none).counters = [] := rfl

/-! ### Helper lemmas about `record` -/

theorem record_fst_startTimeUs (t : Trace) (st du : ℚ) (o : Option RecordOptions) :
    (t.record st du o).1.startTimeUs = some ⌊st * 1000⌋ := by
  rcases o with _ | ⟨ms, attrs⟩ <;>
    [skip; (rcases ms with _ | ms <;> rcases attrs with _ | attrs)] <;>
    simp [Trace.record, Option.bind]

theorem record_fst_durationUs (t : Trace) (st du : ℚ) (o : Option RecordOptions) :
    (t.record st du o).1.durationUs = some ⌊du * 1000⌋ := by
  rcases o with _ | ⟨ms, attrs⟩ <;>
    [skip; (rcases ms with _ | ms <;> rcases attrs with _ | attrs)] <;>
    simp [Trace.record, Option.bind]

theorem record_fst_state (t : Trace) (st du : ℚ) (o : Option RecordOptions) :
    (t.record st du o).1.state = t.state := by
  rcases o with _ | ⟨ms, attrs⟩ <;>
    [skip; (rcases ms with _ | ms <;> rcases attrs with _ | attrs)] <;>
    simp [Trace.record, Option.bind]

theorem record_snd (t : Trace) (st du : ℚ) (o : Option RecordOptions) :
    (t.record st du o).2 = [(t.record st du o).1] := by
  rcases o with _ | ⟨ms, attrs⟩ <;>
    [skip; (rcases ms with _ | ms <;> rcases attrs with _ | attrs)] <;>
    simp [Trace.record, Option.bind]

theorem record_attrs_replace (t : Trace) (st du : ℚ)
    (ms : Option (List (String × MetricValue))) (attrs : AttrMap) :
    (t.record st du (some { metrics := ms, attributes := some attrs })).1.customAttributes
      = attrs := by
  rcases ms with _ | ms <;> simp [Trace.record, Option.bind]

theorem record_counters_eq (t : Trace) (st du : ℚ)
    (ms : List (String × MetricValue)) (attrs : Option AttrMap) :
    (t.record st du (some { metrics := some ms, attributes := attrs })).1.counters
      = applyRecordMetrics t.counters ms := by
  rcases attrs with _ | attrs <;> simp [Trace.record, Option.bind]

theorem record_counters_no_metrics (t : Trace) (st du : ℚ) (attrs : Option AttrMap) :
    (t.record st du (some { metrics := none, attributes := attrs })).1.counters
      = t.counters := by
  rcases attrs with _ | attrs <;> simp [Trace.record, Option.bind]

theorem record_none_counters (t : Trace) (st du : ℚ) :
    (t.record st du none).1.counters = t.counters := by
  simp [Trace.record, Option.bind]

/-! ### Helper lemmas about the metrics loop -/

theorem applyRecordMetrics_lookup_notmem (ms : List (String × MetricValue))
    (cs : CounterMap) (k : String) (h : k ∉ ms.map Prod.fst) :
    JsObj.lookup (applyRecordMetrics cs ms) k = JsObj.lookup cs k := by
  induction ms generalizing cs with
  | nil => rfl
  | cons hd tl ih =>
    obtain ⟨k', v⟩ := hd
    simp only [List.map_cons, List.mem_cons, not_or] at h
    cases v with
    | num q =>
      simpa [applyRecordMetrics, MetricValue.toNumber, ih _ h.2] using
        JsObj.lookup_set_ne cs k' k ((⌊q⌋ : ℤ) : ℚ) h.1
    | nan => simpa [applyRecordMetrics, MetricValue.toNumber] using ih _ h.2

theorem applyRecordMetrics_lookup_nan (ms : List (String × MetricValue))
    (cs : CounterMap) (k : String) (hnodup : (ms.map Prod.fst).Nodup)
    (hmem : (k, MetricValue.nan) ∈ ms) :
    JsObj.lookup (applyRecordMetrics cs ms) k = JsObj.lookup cs k := by
  induction ms generalizing cs with
  | nil => cases hmem
  | cons hd tl ih =>
    obtain ⟨k', v⟩ := hd
    simp only [List.map_cons, List.nodup_cons] at hnodup
    rcases List.mem_cons.mp hmem with heq | hmem'
    · injection heq with hk hv
      subst hk
      subst hv
      simp only [applyRecordMetrics, MetricValue.toNumber]
      exact applyRecordMetrics_lookup_notmem tl cs k hnodup.1
    · have hk' : k ≠ k' := by
        intro hkk
        exact hnodup.1 (hkk ▸ (List.mem_map_of_mem Prod.fst hmem'))
      cases v with
      | num q =>
        simp only [applyRecordMetrics, MetricValue.toNumber]
        rw [ih _ hnodup.2 hmem', JsObj.lookup_set_ne cs k' k _ hk']
      | nan =>
        simp only [applyRecordMetrics, MetricValue.toNumber]
        exact ih _ hnodup.2 hmem'

theorem applyRecordMetrics_lookup_num (ms : List (String × MetricValue))
    (cs : CounterMap) (k : String) (q : ℚ) (hnodup : (ms.map Prod.fst).Nodup)
    (hmem : (k, MetricValue.num q) ∈ ms) :
    JsObj.lookup (applyRecordMetrics cs ms) k = some ((⌊q⌋ : ℤ) : ℚ) := by
  induction ms generalizing cs with
  | nil => cases hmem
  | cons hd tl ih =>
    obtain ⟨k', v⟩ := hd
    simp only [List.map_cons, List.nodup_cons] at hnodup
    rcases List.mem_cons.mp hmem with heq | hmem'
    · injection heq with hk hv
      subst hk
      subst hv
      simp only [applyRecordMetrics, MetricValue.toNumber]
      rw [applyRecordMetrics_lookup_notmem tl _ k hnodup.1,
        JsObj.lookup_set_self]
    · have hk' : k ≠ k' := by
        intro hkk
        exact hnodup.1 (hkk ▸ (List.mem_map_of_mem Prod.fst hmem'))
      cases v with
      | num q' =>
        simp only [applyRecordMetrics, MetricValue.toNumber]
        exact ih _ hnodup.2 hmem'
      | nan =>
        simp only [applyRecordMetrics, MetricValue.toNumber]
        exact ih _ hnodup.2 hmem'

/-! ### Helper lemmas about the state machine -/

theorem step_state_le (api : Api) (t : Trace) (op : Op) :
    t.state.idx ≤ (step api t op).trace.state.idx := by
  cases op with
  | start =>
    by_cases h : t.state = TraceState.uninitialized
    · simp [step, Trace.start, h, TraceState.idx]
    · simp [step, Trace.start, h]
  | stop =>
    by_cases h : t.state = TraceState.running
    · simp [step, Trace.stop, Trace.calculateTraceMetrics, h, TraceState.idx]
      cases hm : ({ t with state := TraceState.terminated } : Trace).traceMeasure with
      | none => simp [hm, TraceState.idx]
      | some n =>
        cases he : api.entriesByName n with
        | nil => simp [hm, he, TraceState.idx]
        | cons e es => simp [hm, he, TraceState.idx]
    · simp [step, Trace.stop, h]
  | record st du o => simp [step, record_fst_state]
  | incrementMetric c n => simp [step, Trace.incrementMetric]
  | putMetric c n => simp [step, Trace.putMetric]
  | putAttribute a v => simp [step, Trace.putAttribute]
  | removeAttribute a =>
    by_cases h : (JsObj.lookup t.customAttributes a).isNone
    · simp [step, Trace.removeAttribute, h]
    · simp [step, Trace.removeAttribute, h]

theorem run_state_le (api : Api) (ops : List Op) (t : Trace) :
    t.state.idx ≤ (run api t ops).1.state.idx := by
  induction ops generalizing t with
  | nil => simp [run]
  | cons op rest ih =>
    calc t.state.idx ≤ (step api t op).trace.state.idx := step_state_le api t op
      _ ≤ (run api (step api t op).trace rest).1.state.idx := ih _
      _ = (run api t (op :: rest)).1.state.idx := by simp [run]

theorem step_state_other (api : Api) (t : Trace) (op : Op)
    (h1 : op ≠ Op.start) (h2 : op ≠ Op.stop) :
    (step api t op).trace.state = t.state := by
  cases op with
  | start => exact absurd rfl h1
  | stop => exact absurd rfl h2
  | record st du o => simp [step, record_fst_state]
  | incrementMetric c n => rfl
  | putMetric c n => rfl
  | putAttribute a v => rfl
  | removeAttribute a =>
    by_cases h : (JsObj.lookup t.customAttributes a).isNone
    · simp [step, Trace.removeAttribute, h]
    · simp [step, Trace.removeAttribute, h]

/-! ### Helper lemmas about the heap model -/

theorem listGetD_append_of_lt {α : Type} (l l' : List α) (d : α) (i : Nat)
    (h : i < l.length) : (l ++ l').getD i d = l.getD i d := by
  induction l generalizing i with
  | nil => cases h
  | cons hd tl ih =>
    cases i with
    | zero => rfl
    | succ j =>
      simp only [List.cons_append, List.getD_cons_succ]
      exact ih j (Nat.lt_of_succ_lt_succ h)

theorem listGetD_append_self {α : Type} (l : List α) (m d : α) :
    (l ++ [m]).getD l.length d = m := by
  induction l with
  | nil => rfl
  | cons hd tl ih =>
    simp only [List.cons_append, List.length_cons, List.getD_cons_succ]
    exact ih

theorem listGetD_set_ne {α : Type} (l : List α) (i j : Nat) (a d : α) (h : j ≠ i) :
    (l.set i a).getD j d = l.getD j d := by
  induction l generalizing i j with
  | nil => rfl
  | cons hd tl ih =>
    cases i with
    | zero =>
      cases j with
      | zero => exact absurd rfl h
      | succ j' => rfl
    | succ i' =>
      cases j with
      | zero => rfl
      | succ j' =>
        simp only [List.set_cons_succ, List.getD_cons_succ]
        exact ih i' j' fun hh => h (congrArg Nat.succ hh)

theorem heap_read_write_ne (h : Heap) (r r' : Nat) (m : AttrMap) (hne : r' ≠ r) :
    Heap.read (Heap.write h r m) r' = Heap.read h r' := by
  simp only [Heap.read, Heap.write]
  exact listGetD_set_ne h.objs r r' m [] hne

theorem heap_read_alloc_self (h : Heap) (m : AttrMap) :
    Heap.read (Heap.alloc h m).2 (Heap.alloc h m).1 = m := by
  simp only [Heap.read, Heap.alloc]
  exact listGetD_append_self h.objs m []

theorem heap_read_alloc_old (h : Heap) (m : AttrMap) (r : Nat) (hr : r < h.objs.length) :
    Heap.read (Heap.alloc h m).2 r = Heap.read h r := by
  simp only [Heap.read, Heap.alloc]
  exact listGetD_append_of_lt h.objs [m] [] r hr

/-! ### Helper lemmas about the page-load factory -/

theorem lookup_applyNavCounters_other (t : Trace) (navs : List NavigationTiming)
    (k : String) (h1 : k ≠ "domInteractive") (h2 : k ≠ "domContentLoadedEventEnd")
    (h3 : k ≠ "loadEventEnd") :
    JsObj.lookup (applyNavCounters t navs).counters k = JsObj.lookup t.counters k := by
  cases navs with
  | nil => rfl
  | cons nav rest =>
    simp only [applyNavCounters]
    rw [lookup_incrementMetric_ne _ _ _ _ h3, lookup_incrementMetric_ne _ _ _ _ h2,
      lookup_incrementMetric_ne _ _ _ _ h1]
    rfl

theorem lookup_applyPaintCounter_other (t : Trace) (cn : String)
    (e : Option PerformanceEntry) (k : String) (h : k ≠ cn) :
    JsObj.lookup (applyPaintCounter t cn e).counters k = JsObj.lookup t.counters k := by
  cases e with
  | none => rfl
  | some p =>
    by_cases hs : truthyNum p.startTime
    · simp only [applyPaintCounter, hs, if_true]
      exact lookup_incrementMetric_ne _ _ _ _ h
    · simp [applyPaintCounter, hs]

theorem lookup_applyFid_nonzero (t : Trace) (fid : ℚ) (h : fid ≠ 0) :
    JsObj.lookup (applyFid t (some fid)).counters FIRST_INPUT_DELAY_COUNTER_NAME
      = some ((JsObj.lookup t.counters FIRST_INPUT_DELAY_COUNTER_NAME).getD 0
          + ((⌊fid * 1000⌋ : ℤ) : ℚ)) := by
  have ht : truthyNum fid = true := by simp [truthyNum, h]
  simp only [applyFid, ht, if_true]
  exact lookup_incrementMetric_self _ _ _

/-! ### Helper lemmas about `calculateTraceMetrics` and the fixtures -/

theorem state_calculateTraceMetrics (api : Api) (t : Trace) :
    (Trace.calculateTraceMetrics api t).state = t.state := by
  unfold Trace.calculateTraceMetrics
  cases hm : t.traceMeasure with
  | none => simp [hm]
  | some n => cases he : api.entriesByName n <;> simp [hm, he]

theorem calculateTraceMetrics_found (api : Api) (t : Trace) (n : String)
    (e : PerformanceEntry) (es : List PerformanceEntry)
    (hm : t.traceMeasure = some n) (he : api.entriesByName n = e :: es) :
    Trace.calculateTraceMetrics api t
      = { t with
          durationUs := some ⌊e.duration * 1000⌋
          startTimeUs := some ⌊(e.startTime + api.timeOrigin) * 1000⌋ } := by
  unfold Trace.calculateTraceMetrics
  simp [hm, he]

theorem calculateTraceMetrics_not_found (api : Api) (t : Trace) (n : String)
    (hm : t.traceMeasure = some n) (he : api.entriesByName n = []) :
    Trace.calculateTraceMetrics api t = t := by
  unfold Trace.calculateTraceMetrics
  simp [hm, he]

theorem counters_trace0 : trace0.counters = [] := rfl

/-! ### The claims -/

/-- C1, counterexample. The claim says a counter set through
`putMetric(c, v)` always holds the truncation of `v` toward zero (for
instance `putMetric("x", 3.7)` followed by `getMetric("x")` returns `3`),
and that `incrementMetric` keeps counters integral. On the source neither
method floors anything: `putMetric` stores the raw value and
`incrementMetric` adds the raw delta, so the stored counter after
`putMetric("x", 3.7)` is `3.7`, not `3`, and a fractional increment
leaves a fractional counter. -/
theorem putMetric_truncation_counterexample :
    (trace0.putMetric "x" (37/10)).getMetric "x" = 37/10
    ∧ (37 : ℚ)/10 ≠ 3
    ∧ (trace0.incrementMetric "y" (1/2)).getMetric "y" = 1/2 := by
  refine ⟨?_, by norm_num, ?_⟩
  · rw [Trace.getMetric,
      show (trace0.putMetric "x" (37/10)).counters
        = JsObj.set trace0.counters "x" (37/10) from rfl,
      JsObj.lookup_set_self]
    rw [jsOrZero]
    norm_num
  · have h := lookup_incrementMetric_self trace0 "y" (1/2)
    rw [show JsObj.lookup trace0.counters "y" = none from rfl] at h
    rw [Trace.getMetric, h, jsOrZero]
    norm_num

/-- C1, amended: `putMetric(c, v)` stores exactly the given value, with
no truncation (so `getMetric` returns it unchanged, fractional or not),
and `incrementMetric(c, v)` stores exactly the previous value (`0` when
the counter was absent) plus the raw delta; counters are floored only on
the `record` and page-load-factory paths. -/
theorem putMetric_incrementMetric_store_exact (t : Trace) (c : String) (v : ℚ) :
    JsObj.lookup (t.putMetric c v).counters c = some v
    ∧ (t.putMetric c v).getMetric c = v
    ∧ JsObj.lookup (t.incrementMetric c v).counters c
        = some ((JsObj.lookup t.counters c).getD 0 + v) := by
  refine ⟨JsObj.lookup_set_self t.counters c v, ?_, lookup_incrementMetric_self t c v⟩
  rw [Trace.getMetric,
    show (t.putMetric c v).counters = JsObj.set t.counters c v from rfl,
    JsObj.lookup_set_self, jsOrZero]
  by_cases h : v = 0 <;> simp [h]

/-- C2: `start()` on a trace whose state is not UNINITIALIZED throws a
`TraceAlreadyStarted`-kind error carrying the trace name and leaves the
trace unmodified (no report is emitted either); `stop()` on a trace whose
state is not RUNNING behaves likewise with a `TraceAlreadyStopped`-kind
error; `start`/`stop` in the correct state do not fail; and no operation
other than `start` and `stop` can fail. -/
theorem trace_guards (api : Api) (t : Trace) :
    (t.state ≠ TraceState.uninitialized →
      step api t Op.start
        = { trace := t, reports := []
            error := some { code := ErrorCode.traceStartedBefore, traceName := t.name } })
    ∧ (t.state ≠ TraceState.running →
      step api t Op.stop
        = { trace := t, reports := []
            error := some { code := ErrorCode.traceStoppedBefore, traceName := t.name } })
    ∧ (t.state = TraceState.uninitialized → (step api t Op.start).error = none)
    ∧ (t.state = TraceState.running → (step api t Op.stop).error = none)
    ∧ (∀ op : Op, op ≠ Op.start → op ≠ Op.stop → (step api t op).error = none) := by
  refine ⟨?_, ?_, ?_, ?_, ?_⟩
  · intro h; simp [step, Trace.start, h]
  · intro h; simp [step, Trace.stop, h]
  · intro h; simp [step, Trace.start, h]
  · intro h; simp [step, Trace.stop, h]
  · intro op h1 h2
    cases op with
    | start => exact absurd rfl h1
    | stop => exact absurd rfl h2
    | record st du o => rfl
    | incrementMetric c n => rfl
    | putMetric c n => rfl
    | putAttribute a v => rfl
    | removeAttribute a => rfl

/-- C2, witness: a started trace rejects `start()` with the
`TraceAlreadyStarted` error carrying its name and stays unmodified, an
unstarted trace rejects `stop()` likewise, and `putMetric` never fails. -/
theorem trace_guards_witness :
    step testApi startedTrace Op.start
        = { trace := startedTrace, reports := []
            error := some { code := ErrorCode.traceStartedBefore, traceName := "t" } }
    ∧ step testApi trace0 Op.stop
        = { trace := trace0, reports := []
            error := some { code := ErrorCode.traceStoppedBefore, traceName := "t" } }
    ∧ (step testApi trace0 (Op.putMetric "x" 1)).error = none :=
  ⟨(trace_guards testApi startedTrace).1 (by decide),
   (trace_guards testApi trace0).2.1 (by decide),
   (trace_guards testApi trace0).2.2.2.2 (Op.putMetric "x" 1)
     (fun h => Op.noConfusion h) (fun h => Op.noConfusion h)⟩

/-- C3: the state machine is monotonic. A single call either leaves the
state unchanged, or is `start` stepping UNINITIALIZED to RUNNING, or is
`stop` stepping RUNNING to TERMINATED (no reversal, no skipping); any
operation other than `start`/`stop` leaves the state unchanged; and over
an arbitrary call sequence the state index (UNINITIALIZED = 1,
RUNNING = 2, TERMINATED = 3) never decreases. -/
theorem trace_state_machine (api : Api) (t : Trace) (op : Op) (ops : List Op) :
    ((step api t op).trace.state = t.state
      ∨ (op = Op.start ∧ t.state = TraceState.uninitialized
          ∧ (step api t op).trace.state = TraceState.running)
      ∨ (op = Op.stop ∧ t.state = TraceState.running
          ∧ (step api t op).trace.state = TraceState.terminated))
    ∧ (op ≠ Op.start → op ≠ Op.stop → (step api t op).trace.state = t.state)
    ∧ t.state.idx ≤ (run api t ops).1.state.idx := by
  refine ⟨?_, step_state_other api t op, run_state_le api ops t⟩
  cases op with
  | start =>
    by_cases h : t.state = TraceState.uninitialized
    · exact Or.inr (Or.inl ⟨rfl, h, by simp [step, Trace.start, h]⟩)
    · exact Or.inl (by simp [step, Trace.start, h])
  | stop =>
    by_cases h : t.state = TraceState.running
    · refine Or.inr (Or.inr ⟨rfl, h, ?_⟩)
      simp only [step, Trace.stop, h]
      simp [state_calculateTraceMetrics]
    · exact Or.inl (by simp [step, Trace.stop, h])
  | record st du o => exact Or.inl (record_fst_state t st du o)
  | incrementMetric c n => exact Or.inl rfl
  | putMetric c n => exact Or.inl rfl
  | putAttribute a v => exact Or.inl rfl
  | removeAttribute a =>
    exact Or.inl (step_state_other api t (Op.removeAttribute a)
      (fun h => Op.noConfusion h) (fun h => Op.noConfusion h))

/-- C3, witness: a metric mutator leaves the state of a concrete trace
unchanged. -/
theorem trace_state_machine_witness :
    (step testApi trace0 (Op.putAttribute "a" "1")).trace.state = trace0.state :=
  (trace_state_machine testApi trace0 (Op.putAttribute "a" "1") []).2.1
    (fun h => Op.noConfusion h) (fun h => Op.noConfusion h)

/-- C4: when metrics are computed from a measurement (the body of
`calculateTraceMetrics`, called by `stop()` and by the constructor's
user-timing path), if the Clock API returns at least one entry for the
measure name then `durationUs = floor(entry.duration * 1000)` and
`startTimeUs = floor((entry.startTime + timeOrigin) * 1000)` for the
first entry; if no matching entry exists the trace is left exactly as it
was (in particular both fields remain unset when they were unset) and no
error is raised (the operation is total). -/
theorem calculateTraceMetrics_spec (api : Api) (t : Trace) (n : String)
    (hm : t.traceMeasure = some n) :
    (∀ e es, api.entriesByName n = e :: es →
      Trace.calculateTraceMetrics api t
        = { t with
            durationUs := some ⌊e.duration * 1000⌋
            startTimeUs := some ⌊(e.startTime + api.timeOrigin) * 1000⌋ })
    ∧ (api.entriesByName n = [] → Trace.calculateTraceMetrics api t = t) := by
  exact ⟨fun e es he => calculateTraceMetrics_found api t n e es hm he,
    fun he => calculateTraceMetrics_not_found api t n hm he⟩

/-- C4, witness: on a registry holding one entry for the measure name,
the duration and start time come out as the floored microsecond
conversions of that entry. -/
theorem calculateTraceMetrics_spec_witness :
    Trace.calculateTraceMetrics apiW traceW
      = { traceW with
          durationUs := some ⌊entryW.duration * 1000⌋
          startTimeUs := some ⌊(entryW.startTime + apiW.timeOrigin) * 1000⌋ } :=
  (calculateTraceMetrics_spec apiW traceW "m" rfl).1 entryW [] rfl

/-- C5: `record(startTime, duration, options)` sets
`startTimeUs = floor(startTime * 1000)` and
`durationUs = floor(duration * 1000)`, replaces (does not merge) the
attribute map with `options.attributes` when supplied, and reports
exactly once (the single reported trace being the final one); on the
spec's example `record(1000, 250, {metrics: {m: 2.9}, attributes:
{k: "v"}})` this yields `startTimeUs = 1000000`,
`durationUs = 250000`, `getMetric("m") = 2` (the metric stored floored)
and `getAttribute("k") = "v"`. -/
theorem record_assigns_and_reports (t : Trace) (st du : ℚ)
    (ms : Option (List (String × MetricValue))) (attrs : AttrMap)
    (o : Option RecordOptions) :
    (t.record st du o).1.startTimeUs = some ⌊st * 1000⌋
    ∧ (t.record st du o).1.durationUs = some ⌊du * 1000⌋
    ∧ (t.record st du o).2 = [(t.record st du o).1]
    ∧ (t.record st du (some { metrics := ms, attributes := some attrs })).1.customAttributes
        = attrs
    ∧ (t.record 1000 250 recOptsW).1.startTimeUs = some 1000000
    ∧ (t.record 1000 250 recOptsW).1.durationUs = some 250000
    ∧ (t.record 1000 250 recOptsW).1.getMetric "m" = 2
    ∧ (t.record 1000 250 recOptsW).1.getAttribute "k" = some "v"
    ∧ (t.record 1000 250 recOptsW).2.length = 1 := by
  refine ⟨record_fst_startTimeUs t st du o, record_fst_durationUs t st du o,
    record_snd t st du o, record_attrs_replace t st du ms attrs, ?_, ?_, ?_, ?_, ?_⟩
  · rw [record_fst_startTimeUs]
    norm_num
  · rw [record_fst_durationUs]
    norm_num
  · rw [Trace.getMetric, recOptsW,
      record_counters_eq t 1000 250 [("m", MetricValue.num (29/10))] (some [("k", "v")])]
    simp only [applyRecordMetrics, MetricValue.toNumber]
    rw [JsObj.lookup_set_self, jsOrZero]
    norm_num
  · rw [Trace.getAttribute, recOptsW,
      record_attrs_replace t 1000 250 (some [("m", MetricValue.num (29/10))]) [("k", "v")]]
    rfl
  · rw [record_snd]
    rfl

/-- C6: in `record`'s metrics map, every entry whose value is not
numeric after `Number(...)` coercion is silently skipped — the counter
keeps whatever value it had, hence stays absent (not present, not zero)
on a fresh trace — while every numeric entry of the same map is stored
floored; `record` itself cannot fail. Keys of a JS object are unique,
whence the `Nodup` hypothesis. -/
theorem record_drops_nonnumeric_metrics (t : Trace) (st du : ℚ)
    (ms : List (String × MetricValue)) (attrs : Option AttrMap)
    (hnodup : (ms.map Prod.fst).Nodup) :
    (∀ k, (k, MetricValue.nan) ∈ ms →
      JsObj.lookup
          (t.record st du (some { metrics := some ms, attributes := attrs })).1.counters k
        = JsObj.lookup t.counters k)
    ∧ (∀ k q, (k, MetricValue.num q) ∈ ms →
      JsObj.lookup
          (t.record st du (some { metrics := some ms, attributes := attrs })).1.counters k
        = some ((⌊q⌋ : ℤ) : ℚ))
    ∧ JsObj.lookup
        (trace0.record st du (some { metrics := some msW, attributes := none })).1.counters
        "m" = none
    ∧ (trace0.record st du (some { metrics := some msW, attributes := none })).1.getMetric
        "n" = 2 := by
  refine ⟨?_, ?_, ?_, ?_⟩
  · intro k hk
    rw [record_counters_eq]
    exact applyRecordMetrics_lookup_nan ms t.counters k hnodup hk
  · intro k q hk
    rw [record_counters_eq]
    exact applyRecordMetrics_lookup_num ms t.counters k q hnodup hk
  · rw [record_counters_eq, counters_trace0, msW]
    simp only [applyRecordMetrics, MetricValue.toNumber]
    rw [JsObj.lookup_set_ne _ _ _ _ (by decide)]
    rfl
  · rw [Trace.getMetric, record_counters_eq, counters_trace0, msW]
    simp only [applyRecordMetrics, MetricValue.toNumber]
    rw [JsObj.lookup_set_self, jsOrZero]
    norm_num

/-- C6, witness: on a fresh trace, recording `{m: "not-a-number"}`
alongside a numeric sibling leaves `m` exactly as it was (absent). -/
theorem record_drops_nonnumeric_metrics_witness :
    JsObj.lookup
        (trace0.record 1 1 (some { metrics := some msW, attributes := none })).1.counters
      "m" = JsObj.lookup trace0.counters "m" :=
  (record_drops_nonnumeric_metrics trace0 1 1 msW none (by decide)).1 "m" (by decide)

theorem calculateTraceMetrics_testApi (t : Trace) :
    Trace.calculateTraceMetrics testApi t = t := by
  unfold Trace.calculateTraceMetrics
  cases hm : t.traceMeasure with
  | none => simp [hm]
  | some n => simp [hm, testApi]

/-- C7: `record` neither checks nor mutates the trace state: in any state
it succeeds (no error), leaves `state` exactly as it was, and emits
exactly one report. Concretely, a trace that was started, stopped (and
thereby reported) can still be `record()`-ed twice more from the same
object: the run emits three reports — the one from `stop` and one per
`record` — the two `record` reports carrying different values. -/
theorem record_state_frame (api : Api) (t : Trace) (st du : ℚ)
    (o : Option RecordOptions) :
    (step api t (Op.record st du o)).error = none
    ∧ (step api t (Op.record st du o)).trace.state = t.state
    ∧ (step api t (Op.record st du o)).reports.length = 1
    ∧ ((run testApi traceR [Op.start, Op.stop, Op.record 1 1 none, Op.record 2 2 none]).2.map
        (fun tr => tr.startTimeUs)) = [none, some 1000, some 2000]
    ∧ (run testApi traceR [Op.start, Op.stop, Op.record 1 1 none, Op.record 2 2 none]).2.length
        = 3 := by
  have hstate : traceR.state = TraceState.uninitialized := rfl
  have hstart : traceR.startTimeUs = none := rfl
  refine ⟨rfl, record_fst_state t st du o, ?_, ?_, ?_⟩
  · show (t.record st du o).2.length = 1
    rw [record_snd]
    rfl
  · simp [run, step, Trace.start, Trace.stop, Trace.record, Option.bind, hstate, hstart,
      calculateTraceMetrics_testApi]
    norm_num
  · simp [run, step, Trace.start, Trace.stop, Trace.record, Option.bind, hstate,
      calculateTraceMetrics_testApi]

theorem applyFid_zero (t : Trace) : applyFid t (some 0) = t := by
  simp [applyFid, truthyNum]

theorem applyPaintCounter_none (t : Trace) (cn : String) :
    applyPaintCounter t cn none = t := rfl

/-- C8, counterexample. The claim says that whenever the page-load
factory runs with a route available and a first-input-delay value is
supplied, the resulting trace records that value (floored to
microseconds) under the fixed first-input-delay counter name. The source
guards the recording with `if (firstInputDelay)`, a JS truthiness test,
so the supplied value `0` is not recorded: with a route available
(exactly one trace is produced and reported) and `firstInputDelay = 0`,
the counter is absent from the resulting trace — while the claim
requires it to be present with value `floor(0 * 1000) = 0`. -/
theorem oob_fid_zero_counterexample :
    (Trace.createOobTrace oobApi 5 [navW] [] (some 0)).map
        (fun tr => JsObj.lookup tr.counters FIRST_INPUT_DELAY_COUNTER_NAME) = [none]
    ∧ (Trace.createOobTrace oobApi 5 [navW] [] (some 0)).length = 1
    ∧ (none : Option ℚ) ≠ some ((⌊(0 : ℚ) * 1000⌋ : ℤ) : ℚ) := by
  refine ⟨?_, ?_, by simp⟩
  · simp only [Trace.createOobTrace, oobApi]
    rw [show truthyStr "page" = true from by decide]
    simp only [if_true, List.map_cons, List.map_nil, List.find?_nil,
      applyFid_zero, applyPaintCounter_none]
    rw [lookup_applyNavCounters_other _ _ _ (by decide) (by decide) (by decide),
      counters_setStartTime, counters_new_auto]
    rfl
  · simp only [Trace.createOobTrace, oobApi]
    rw [show truthyStr "page" = true from by decide]
    simp

/-- C8, amended: for every invocation of the page-load factory in which
a (truthy, i.e. nonempty) route is available, if a first-input-delay
value is supplied **and is nonzero** (the source's `if (firstInputDelay)`
truthiness guard treats a zero delay like an absent one), then exactly
one trace is produced and it carries `floor(fid * 1000)` as a counter
under the fixed first-input-delay name. -/
theorem oob_records_nonzero_fid (api : Api) (randomId : Nat)
    (navs : List NavigationTiming) (paints : List PerformanceEntry)
    (fid : ℚ) (r : String) (hurl : api.url = some r) (hr : truthyStr r = true)
    (hfid : fid ≠ 0) :
    (Trace.createOobTrace api randomId navs paints (some fid)).map
        (fun tr => JsObj.lookup tr.counters FIRST_INPUT_DELAY_COUNTER_NAME)
      = [some ((⌊fid * 1000⌋ : ℤ) : ℚ)] := by
  simp only [Trace.createOobTrace, hurl, hr, if_true, List.map_cons, List.map_nil]
  rw [lookup_applyFid_nonzero _ _ hfid,
    lookup_applyPaintCounter_other _ _ _ _ (by decide),
    lookup_applyPaintCounter_other _ _ _ _ (by decide),
    lookup_applyNavCounters_other _ _ _ (by decide) (by decide) (by decide),
    counters_setStartTime, counters_new_auto]
  simp [JsObj.lookup]

/-- C8, witness: with a route available and a nonzero first-input-delay
supplied, the produced trace carries the floored delay under the fixed
counter name. -/
theorem oob_records_nonzero_fid_witness :
    (Trace.createOobTrace oobApi 5 [navW] [] (some (3/2))).map
        (fun tr => JsObj.lookup tr.counters FIRST_INPUT_DELAY_COUNTER_NAME)
      = [some ((⌊(3/2 : ℚ) * 1000⌋ : ℤ) : ℚ)] :=
  oob_records_nonzero_fid oobApi 5 [navW] [] (3/2) "page" rfl (by decide) (by norm_num)

/-- C9: `getAttributes()` returns a defensive copy of the full attribute
map. In the heap model: the returned object carries the same contents as
the internal map but is a distinct object; mutating the returned object
changes neither the internal map nor the result of any subsequent
`getAttribute`/`getAttributes` call. Concretely, after
`putAttribute("a","1")` the returned map reads `[("a","1")]`, and after
the caller overwrites `a` in the returned object, `getAttribute("a")` on
the trace still yields `"1"`. -/
theorem getAttributes_defensive_copy (h : Heap) (t : TraceObj) (k v a : String)
    (hvalid : t.attrsRef < h.objs.length) :
    Heap.read (TraceObj.getAttributes h t).2 (TraceObj.getAttributes h t).1
        = Heap.read h t.attrsRef
    ∧ (TraceObj.getAttributes h t).1 ≠ t.attrsRef
    ∧ Heap.read (objSet (TraceObj.getAttributes h t).2 (TraceObj.getAttributes h t).1 k v)
        t.attrsRef = Heap.read h t.attrsRef
    ∧ TraceObj.getAttribute
        (objSet (TraceObj.getAttributes h t).2 (TraceObj.getAttributes h t).1 k v) t a
        = TraceObj.getAttribute h t a
    ∧ Heap.read
        (TraceObj.getAttributes
          (objSet (TraceObj.getAttributes h t).2 (TraceObj.getAttributes h t).1 k v) t).2
        (TraceObj.getAttributes
          (objSet (TraceObj.getAttributes h t).2 (TraceObj.getAttributes h t).1 k v) t).1
        = Heap.read h t.attrsRef
    ∧ Heap.read (TraceObj.getAttributes (TraceObj.putAttribute heap0 tObj0 "a" "1") tObj0).2
        (TraceObj.getAttributes (TraceObj.putAttribute heap0 tObj0 "a" "1") tObj0).1
        = [("a", "1")]
    ∧ TraceObj.getAttribute
        (objSet (TraceObj.getAttributes (TraceObj.putAttribute heap0 tObj0 "a" "1") tObj0).2
          (TraceObj.getAttributes (TraceObj.putAttribute heap0 tObj0 "a" "1") tObj0).1
          "a" "2")
        tObj0 "a" = some "1" := by
  have hne : t.attrsRef ≠ (TraceObj.getAttributes h t).1 := Nat.ne_of_lt hvalid
  have hcopy : Heap.read (TraceObj.getAttributes h t).2 (TraceObj.getAttributes h t).1
      = Heap.read h t.attrsRef := heap_read_alloc_self h _
  have hold : Heap.read
      (objSet (TraceObj.getAttributes h t).2 (TraceObj.getAttributes h t).1 k v)
      t.attrsRef = Heap.read h t.attrsRef := by
    rw [objSet, heap_read_write_ne _ _ _ _ hne]
    exact heap_read_alloc_old h _ _ hvalid
  refine ⟨hcopy, hne.symm, hold, ?_, ?_, by decide, by decide⟩
  · rw [TraceObj.getAttribute, TraceObj.getAttribute, hold]
  · rw [TraceObj.getAttributes, heap_read_alloc_self]
    exact hold

/-- C9, witness: on a one-object heap the copy returned by
`getAttributes` is a fresh object with the same contents. -/
theorem getAttributes_defensive_copy_witness :
    (TraceObj.getAttributes heap0 tObj0).1 ≠ tObj0.attrsRef
    ∧ Heap.read (TraceObj.getAttributes heap0 tObj0).2
        (TraceObj.getAttributes heap0 tObj0).1 = Heap.read heap0 tObj0.attrsRef :=
  ⟨(getAttributes_defensive_copy heap0 tObj0 "a" "2" "a" (by decide)).2.1,
   (getAttributes_defensive_copy heap0 tObj0 "a" "2" "a" (by decide)).1⟩

/-- C10: `record(startTime, duration)` with no options, or with options
lacking both keys, changes only `startTimeUs` and `durationUs` (to the
floored microsecond values); in particular the counters map and the
custom-attributes map are left exactly as they were. -/
theorem record_without_options_frame (t : Trace) (st du : ℚ) :
    (t.record st du none).1
        = { t with startTimeUs := some ⌊st * 1000⌋, durationUs := some ⌊du * 1000⌋ }
    ∧ (t.record st du (some { metrics := none, attributes := none })).1
        = { t with startTimeUs := some ⌊st * 1000⌋, durationUs := some ⌊du * 1000⌋ }
    ∧ (t.record st du none).1.counters = t.counters
    ∧ (t.record st du none).1.customAttributes = t.customAttributes
    ∧ (t.record st du (some { metrics := none, attributes := none })).1.counters
        = t.counters
    ∧ (t.record st du (some { metrics := none, attributes := none })).1.customAttributes
        = t.customAttributes := by
  refine ⟨?_, ?_, ?_, ?_, ?_, ?_⟩ <;> simp [Trace.record, Option.bind]

end FirebasePerf
